import Mathlib

/-!
Verification of the annotation-portal storage subsystem
(`utils/storage.py`), the data catalog (`utils/data_loader.py`) and their
configuration (`config.py`), as a shallow embedding in Lean 4.

Modelling conventions:
* Python dictionaries holding user records and annotation records become
  Lean structures with the same fields; JSON files become values of the
  corresponding list types; the CSV file becomes a header plus a list of
  rows, a row being the list of its cell strings.
* Wall-clock readings (`datetime.now().isoformat()`) and the random salt
  (`secrets.token_hex(32)`) are nondeterministic inputs of the Python
  code; they are passed in as explicit `String` arguments.
* The key-derivation function (`hashlib.pbkdf2_hmac` followed by `.hex()`)
  is passed in as an explicit function argument `kdf : String → String →
  String` (password, then salt); the code under study only composes and
  compares its results, never inspects them.
* Fallible reads (a file that is unreadable or fails to parse) are
  modelled with `Except String`.
-/

namespace Annotation

/-- One record of the annotation ledger, as written by
`AnnotationStorage.save_annotation`: the seven caller-supplied fields plus
the two ledger-assigned ones (`annotation_id`, `timestamp`). -/
structure AnnRecord where
  annotation_id : String
  image_path : String
  folder : String
  filename : String
  suggested_label : String
  is_correct : Bool
  corrected_label : String
  annotator : String
  timestamp : String
deriving Repr, DecidableEq

/-- The caller-supplied part of an annotation, the argument of
`save_annotation` (everything but `annotation_id` and `timestamp`). -/
structure AnnInput where
  image_path : String
  folder : String
  filename : String
  suggested_label : String
  is_correct : Bool
  corrected_label : String
  annotator : String
deriving Repr, DecidableEq

/-- One user record of `users.json`, as written by
`AnnotationStorage.register_user`. -/
structure User where
  username : String
  password_hash : String
  role : String
  created_at : String
  last_login : Option String
  is_active : Bool
deriving Repr, DecidableEq

/-! ### Decimal formatting (Python `f"{n:06d}"`) -/

/-- The character of a decimal digit (Python digit characters). -/
def digitChar (n : Nat) : Char := Char.ofNat (48 + n)

/-- The decimal digit string of `n`, most significant digit first
(the digits Python `str`/`format` prints for a nonnegative int). -/
def natDigitsAux : Nat → Nat → List Char
  | 0, _ => []
  | fuel + 1, n =>
    if n < 10 then [digitChar n]
    else natDigitsAux fuel (n / 10) ++ [digitChar (n % 10)]

/-- The decimal digit string of `n`, most significant digit first: `n + 1`
units of fuel always suffice. -/
def natDigits (n : Nat) : List Char := natDigitsAux (n + 1) n

/-- Python `f"{n:0wd}"`: the decimal digits of `n`, left padded with
zeros to width `w` (never truncated). -/
def padZeros (w : Nat) (n : Nat) : String :=
  String.mk (List.replicate (w - (natDigits n).length) '0' ++ natDigits n)

/-- Reads a digit string back to the number it denotes; used only to prove
that `padZeros` is injective. -/
def decodeDigits (cs : List Char) : Nat :=
  cs.foldl (fun a c => 10 * a + (c.toNat - 48)) 0

/-! ### Password hashing (`_hash_password` / `_verify_password`)

Python `_hash_password` draws a random hex salt, derives
`pbkdf2_hmac("sha256", password, salt, 100000).hex()` and stores
`f"{salt}${hash}"`.  `_verify_password` splits the stored string on `$`
into exactly two parts (any other shape raises, which the bare `except`
turns into `False`) and compares the rederived hex digest. -/

/-- Python `str.split(sep)` for a one-character separator: the maximal
runs between occurrences of `c`, empty runs kept. -/
def splitOnCharPy (c : Char) : List Char → List (List Char)
  | [] => [[]]
  | x :: xs =>
    if x = c then [] :: splitOnCharPy c xs
    else
      match splitOnCharPy c xs with
      | [] => [[x]]
      | y :: ys => (x :: y) :: ys

/-- `AnnotationStorage._hash_password`, with the salt and the key
derivation function supplied explicitly. -/
def hash_password (kdf : String → String → String) (salt password : String) : String :=
  salt ++ "$" ++ kdf password salt

/-- `AnnotationStorage._verify_password`: split the stored hash on `$`;
anything other than exactly two parts raises and is caught, giving
`false`; otherwise rederive and compare. -/
def verify_password (kdf : String → String → String) (password password_hash : String) : Bool :=
  match splitOnCharPy '$' password_hash.data with
  | [salt, pwd_hash] => (kdf password (String.mk salt)).data == pwd_hash
  | _ => false

/-! ### Configuration (`config.py`) -/

/-- `config.PASSWORD_MIN_LENGTH`. -/
def PASSWORD_MIN_LENGTH : Nat := 8

/-- `config.PASSWORD_REQUIRE_UPPERCASE`. -/
def PASSWORD_REQUIRE_UPPERCASE : Bool := true

/-- `config.PASSWORD_REQUIRE_NUMBERS`. -/
def PASSWORD_REQUIRE_NUMBERS : Bool := true

/-- `config.ADMIN_CREATION_KEY`: the default value used when the
environment variable of the same name is unset. -/
def ADMIN_CREATION_KEY : String := "admin_key_2024"

/-! ### User directory (`AnnotationStorage` user operations)

The user store `users.json` is a list of `User`; every operation loads it,
possibly rewrites it in full, and returns its Python return value.  Each
Lean function returns the pair (Python return value, user list as saved),
the list being unchanged whenever the Python code never calls
`_save_users`. -/

/-- `AnnotationStorage._validate_password`. -/
def validate_password (password : String) : Bool × String :=
  if password.length < PASSWORD_MIN_LENGTH then
    (false, "Password must be at least 8 characters")
  else if PASSWORD_REQUIRE_UPPERCASE && !(password.data.any Char.isUpper) then
    (false, "Password must contain at least one uppercase letter")
  else if PASSWORD_REQUIRE_NUMBERS && !(password.data.any Char.isDigit) then
    (false, "Password must contain at least one number")
  else
    (true, "Password valid")

/-- Python truthiness-plus-equality test `not admin_key or admin_key !=
ADMIN_CREATION_KEY` (negated): the key is accepted when it is present,
truthy and equal to `ADMIN_CREATION_KEY`. -/
def adminKeyOk (admin_key : Option String) : Bool :=
  match admin_key with
  | none => false
  | some k => !(k == "") && (k == ADMIN_CREATION_KEY)

/-- A single straight quote character, used by the Python f-string of the
registration success message. -/
def sq : String := String.mk ['\x27']

/-- `AnnotationStorage.register_user`.  `salt` stands for the
`secrets.token_hex(32)` drawn inside `_hash_password` and `now` for
`datetime.now().isoformat()`. -/
def register_user (kdf : String → String → String) (salt now : String)
    (users : List User) (username password role : String)
    (admin_key : Option String) : (Bool × String) × List User :=
  if username == "" || username.length < 3 then
    ((false, "Username must be at least 3 characters"), users)
  else if users.any (fun u => u.username == username) then
    ((false, "Username already exists"), users)
  else
    let pv := validate_password password
    if !pv.1 then
      ((false, pv.2), users)
    else if role == "admin" && !(adminKeyOk admin_key) then
      ((false, "Invalid admin creation key"), users)
    else
      ((true, "User " ++ sq ++ username ++ sq ++ " created successfully as " ++ role),
        users ++ [{ username := username,
                    password_hash := hash_password kdf salt password,
                    role := role,
                    created_at := now,
                    last_login := none,
                    is_active := true }])

/-- The loop body of `AnnotationStorage.authenticate_user`: walk the user
list, act on the first record whose `username` matches. -/
def authenticate_go (kdf : String → String → String) (now username password : String) :
    List User → (Bool × Option User) × List User
  | [] => ((false, none), [])
  | u :: rest =>
    if u.username == username then
      if !u.is_active then ((false, none), u :: rest)
      else if verify_password kdf password u.password_hash then
        let u2 := { u with last_login := some now }
        ((true, some u2), u2 :: rest)
      else ((false, none), u :: rest)
    else
      let r := authenticate_go kdf now username password rest
      (r.1, u :: r.2)

/-- `AnnotationStorage.authenticate_user`: on success the matched user
gets `last_login := now` and the list is saved; on any failure the code
returns `(False, None)` without saving. -/
def authenticate_user (kdf : String → String → String) (now : String)
    (users : List User) (username password : String) :
    (Bool × Option User) × List User :=
  authenticate_go kdf now username password users

/-- Shared loop of `disable_user` / `enable_user`: set `is_active` of the
first matching user and report `true`, else report `false`. -/
def set_active_go (username : String) (b : Bool) : List User → Bool × List User
  | [] => (false, [])
  | u :: rest =>
    if u.username == username then (true, { u with is_active := b } :: rest)
    else
      let r := set_active_go username b rest
      (r.1, u :: r.2)

/-- `AnnotationStorage.disable_user`. -/
def disable_user (users : List User) (username : String) : Bool × List User :=
  set_active_go username false users

/-- `AnnotationStorage.enable_user`. -/
def enable_user (users : List User) (username : String) : Bool × List User :=
  set_active_go username true users

/-- `AnnotationStorage.delete_user`: filter the list, save, return
`True` unconditionally. -/
def delete_user (users : List User) (username : String) : Bool × List User :=
  (true, users.filter (fun u => !(u.username == username)))

/-- `AnnotationStorage.get_user`: first record with the given username. -/
def get_user (users : List User) (username : String) : Option User :=
  users.find? (fun u => u.username == username)

/-! ### Annotation ledger: write path (`save_annotation`)

`history.json` holds the whole ledger as one array; `history.csv` holds a
header row written by `_initialize_files` followed by one row appended per
`save_annotation`.  `LedgerState` is the parsed view of the two files
(the state on which the write path operates; `save_annotation` itself
calls `load_history` and so needs the JSON file to parse). -/

/-- The parsed ledger store: the `history.json` array and the data rows of
`history.csv` (header excluded); a CSV row is the list of its cells. -/
structure LedgerState where
  historyJson : List AnnRecord
  historyCsv : List (List String)
deriving Repr, DecidableEq

/-- The store right after `_initialize_files` on a fresh directory. -/
def emptyLedger : LedgerState := { historyJson := [], historyCsv := [] }

/-- The CSV header written by `_initialize_files` (nine column names). -/
def csvHeader : List String :=
  ["annotation_id", "image_path", "folder", "filename",
   "suggested_label", "is_correct", "corrected_label",
   "annotator", "timestamp"]

/-- The `fieldnames` list of the `csv.DictWriter` used inside
`save_annotation` (ten names: the header columns plus `status`). -/
def csvSaveFieldnames : List String := csvHeader ++ ["status"]

/-- Python `str(b)` for the booleans that `csv.DictWriter` stringifies. -/
def pyStrBool (b : Bool) : String := if b then "True" else "False"

/-- The cell a `csv.DictWriter` writes for field `f` of a full annotation
record: the stringified dictionary value, or the default `restval` `""`
for a fieldname (such as `status`) absent from the dictionary. -/
def annField (a : AnnRecord) (f : String) : String :=
  if f == "annotation_id" then a.annotation_id
  else if f == "image_path" then a.image_path
  else if f == "folder" then a.folder
  else if f == "filename" then a.filename
  else if f == "suggested_label" then a.suggested_label
  else if f == "is_correct" then pyStrBool a.is_correct
  else if f == "corrected_label" then a.corrected_label
  else if f == "annotator" then a.annotator
  else if f == "timestamp" then a.timestamp
  else ""

/-- The CSV row `writer.writerow(full_annotation)` emits for record `a`
under fieldnames `fields`. -/
def annRow (fields : List String) (a : AnnRecord) : List String :=
  fields.map (annField a)

/-- `AnnotationStorage._generate_annotation_id`:
`f"ANN_{len(history) + 1:06d}"`. -/
def generate_annotation_id (history : List AnnRecord) : String :=
  "ANN_" ++ padZeros 6 (history.length + 1)

/-- The full record `save_annotation` builds: the ledger-assigned id and
timestamp merged with the caller-supplied fields. -/
def mkFullAnnotation (annotation_id timestamp : String) (i : AnnInput) : AnnRecord :=
  { annotation_id := annotation_id
    image_path := i.image_path
    folder := i.folder
    filename := i.filename
    suggested_label := i.suggested_label
    is_correct := i.is_correct
    corrected_label := i.corrected_label
    annotator := i.annotator
    timestamp := timestamp }

/-- `AnnotationStorage.save_annotation`: generate the id from the current
JSON ledger length, stamp `now`, append the row to `history.csv` and the
record to `history.json`. -/
def save_annotation (now : String) (st : LedgerState) (i : AnnInput) : LedgerState :=
  let annotation_id := generate_annotation_id st.historyJson
  let full := mkFullAnnotation annotation_id now i
  { historyJson := st.historyJson ++ [full]
    historyCsv := st.historyCsv ++ [annRow csvSaveFieldnames full] }

/-- A sequence of `save_annotation` calls, each with its own wall-clock
reading. -/
def appendAll (st : LedgerState) : List (String × AnnInput) → LedgerState
  | [] => st
  | (now, i) :: rest => appendAll ( save_annotation now st i) rest

/-! ### Annotation ledger: read paths -/

/-- Outcome of opening and parsing the two persisted ledger files: either
the parsed content or the message of the exception raised
(unreadable file, `json.JSONDecodeError`, `pandas` parse error, ...). -/
structure PersistedHistory where
  json : Except String (List AnnRecord)
  csv : Except String (List String × List (List String))

/-- `AnnotationStorage.load_history`: a bare `json.load`; any failure
propagates to the caller. -/
def load_history (p : PersistedHistory) : Except String (List AnnRecord) :=
  p.json

/-- The shapes a `pandas.DataFrame` takes in `load_history_df`. -/
inductive DataFrame where
  | empty : DataFrame
  | ofRecords : List AnnRecord → DataFrame
  | ofTable : List String → List (List String) → DataFrame
deriving Repr, DecidableEq

/-- The expected-columns list `cols` inside `load_history_df`. -/
def dfKnownCols : List String := csvHeader ++ ["status"]

/-- The cell of `row` under column `c` of `header` (the column projection
`df[keep_cols]` performs). -/
def cellUnder (header row : List String) (c : String) : String :=
  match header.indexOf? c with
  | none => ""
  | some i => row.getD i ""

/-- `AnnotationStorage.load_history_df`: prefer the JSON ledger (an empty
ledger gives an empty frame); if that read raises, fall back to reading
the CSV restricted to the known columns; if that raises too, return an
empty frame.  This function never propagates a failure. -/
def load_history_df (p : PersistedHistory) : DataFrame :=
  match p.json with
  | .ok [] => .empty
  | .ok history => .ofRecords history
  | .error _ =>
    match p.csv with
    | .ok (header, rows) =>
      let keep := dfKnownCols.filter (fun c => header.contains c)
      .ofTable keep (rows.map (fun r => keep.map (cellUnder header r)))
    | .error _ => .empty

/-- `AnnotationStorage.get_user_annotations` (over a parsed ledger). -/
def get_user_annotations (history : List AnnRecord) (username : String) :
    List AnnRecord :=
  history.filter (fun a => a.annotator == username)

/-- The result dictionary of `get_user_stats`; the percentage, a Python
float obtained by exact division of small integers, is modelled as a
rational. -/
structure UserStats where
  total : Nat
  correct : Nat
  incorrect : Nat
  correct_percentage : Rat
deriving Repr, DecidableEq

/-- `AnnotationStorage.get_user_stats`. -/
def get_user_stats (history : List AnnRecord) (username : String) : UserStats :=
  let annotations := get_user_annotations history username
  if annotations.isEmpty then
    { total := 0, correct := 0, incorrect := 0, correct_percentage := 0 }
  else
    let correct := (annotations.filter (fun a => a.is_correct)).length
    { total := annotations.length
      correct := correct
      incorrect := annotations.length - correct
      correct_percentage := (correct : Rat) / (annotations.length : Rat) * 100 }

/-- Python `<` on strings, on the underlying character lists:
lexicographic comparison by code point. -/
def strLtList : List Char → List Char → Bool
  | [], [] => false
  | [], _ :: _ => true
  | _ :: _, [] => false
  | a :: as, b :: bs =>
    if a.toNat < b.toNat then true
    else if b.toNat < a.toNat then false
    else strLtList as bs

/-- Python `<` on strings. -/
def strLt (a b : String) : Bool := strLtList a.data b.data

/-- Insert into a list already sorted by strictly descending timestamp,
keeping equal timestamps in their original relative order: the model of
one step of the stable `sorted(key=lambda x: x.timestamp, reverse=True)`. -/
def insertTsDesc (a : AnnRecord) : List AnnRecord → List AnnRecord
  | [] => [a]
  | b :: l =>
    if strLt a.timestamp b.timestamp then b :: insertTsDesc a l
    else a :: b :: l

/-- Python `sorted(l, key=lambda x: x.timestamp, reverse=True)`: the
stable sort by descending timestamp (an element precedes another exactly
when its timestamp is larger, or the timestamps are equal and it came
first). -/
def sortTsDesc (l : List AnnRecord) : List AnnRecord :=
  l.foldr insertTsDesc []

/-- `AnnotationStorage.get_latest_annotation_for_image`. -/
def get_latest_annotation_for_image (history : List AnnRecord)
    (image_path username : String) : Option AnnRecord :=
  let annotations := get_user_annotations history username
  let user_image_annotations := annotations.filter (fun a => a.image_path == image_path)
  match sortTsDesc user_image_annotations with
  | [] => none
  | x :: _ => some x

/-- The first element of maximal timestamp of a list (earliest among
timestamp ties): keep an element unless some later one is strictly
larger. -/
def firstMaxTs : List AnnRecord → Option AnnRecord
  | [] => none
  | a :: l =>
    match firstMaxTs l with
    | none => some a
    | some m => if strLt a.timestamp m.timestamp then some m else some a

/-! ### Data catalog (`utils/data_loader.py`)

The filesystem the loader walks is made explicit: the subdirectories of
`sorted_crops/` with the names of the plain files each contains (in
directory-iteration order, unsorted), and the ground-truth text files
keyed by folder name (the content of `ground_truth/<folder>.txt` as its
list of raw lines, a missing key being a missing file). -/

/-- `config.IMAGE_EXTENSIONS`. -/
def IMAGE_EXTENSIONS : List String :=
  [".jpg", ".jpeg", ".png", ".JPG", ".JPEG", ".PNG"]

/-- Index of the last occurrence of `c` (Python `str.rfind`, restricted to
found/not-found). -/
def lastIdxOf (c : Char) (cs : List Char) : Option Nat :=
  ((cs.enum.filter (fun p => p.2 == c)).map (fun p => p.1)).getLast?

/-- `pathlib.PurePath.suffix` of a file name: `name[i:]` for `i` the last
dot position when `0 < i < len(name) - 1`, else `""`. -/
def pathSuffix (name : String) : String :=
  let cs := name.data
  match lastIdxOf '.' cs with
  | none => ""
  | some i => if 0 < i ∧ i < cs.length - 1 then String.mk (cs.drop i) else ""

/-- Insert into a list already sorted ascending, before the first element
not smaller: one step of the stable Python `sorted`. -/
def insertStrAsc (a : String) : List String → List String
  | [] => [a]
  | b :: l =>
    if strLt b a then b :: insertStrAsc a l
    else a :: b :: l

/-- Python `sorted` on strings: stable ascending lexicographic sort. -/
def sortStrAsc (l : List String) : List String :=
  l.foldr insertStrAsc []

/-- The filesystem state a `DataLoader` reads. -/
structure DataLoaderFs where
  sorted_crops_dir : String
  cropFolders : List (String × List String)
  gtLines : List (String × List String)
deriving Repr, DecidableEq

/-- `DataLoader.get_all_folders`: the subfolder names, sorted. -/
def get_all_folders (fs : DataLoaderFs) : List String :=
  sortStrAsc (fs.cropFolders.map Prod.fst)

/-- Python `str.isspace` characters relevant to `strip()` (ASCII
whitespace). -/
def isPyWhitespace (c : Char) : Bool :=
  c == ' ' || c == '\t' || c == '\n' || c == '\r' || c == '\x0b' || c == '\x0c'

/-- Python `str.strip()`: drop leading and trailing whitespace. -/
def pyStrip (s : String) : String :=
  String.mk (((s.data.dropWhile isPyWhitespace).reverse.dropWhile isPyWhitespace).reverse)

/-- `DataLoader.load_ground_truth`: the stripped lines of
`ground_truth/<folder>.txt`, or `[]` when the file does not exist. -/
def load_ground_truth (fs : DataLoaderFs) (folder_name : String) : List String :=
  match fs.gtLines.lookup folder_name with
  | none => []
  | some lines => lines.map pyStrip

/-- `DataLoader.get_images_in_folder`: the files of the folder whose
suffix is an image extension, sorted by name; `[]` when the folder does
not exist. -/
def get_images_in_folder (fs : DataLoaderFs) (folder_name : String) : List String :=
  match fs.cropFolders.lookup folder_name with
  | none => []
  | some files =>
    sortStrAsc (files.filter (fun f => IMAGE_EXTENSIONS.contains (pathSuffix f)))

/-- One entry of the list `DataLoader.load_all_data` returns. -/
structure DataItem where
  image_path : String
  folder : String
  filename : String
  suggested_label : String
  index : Nat
deriving Repr, DecidableEq

/-- The inner loop of `load_all_data` for one folder: pair the images,
in sorted order, with the label of the same index, an out-of-range index
getting `""`. -/
def folderItems (fs : DataLoaderFs) (folder : String) : List DataItem :=
  let images := get_images_in_folder fs folder
  let labels := load_ground_truth fs folder
  images.enum.map (fun p =>
    { image_path := fs.sorted_crops_dir ++ "/" ++ folder ++ "/" ++ p.2
      folder := folder
      filename := p.2
      suggested_label := labels.getD p.1 ""
      index := p.1 })

/-- `DataLoader.load_all_data`. -/
def load_all_data (fs : DataLoaderFs) : List DataItem :=
  (get_all_folders fs).flatMap (folderItems fs)

/-- The records a run of `save_annotation` calls generates, given the
ledger length at the start of the run. -/
def genRecords (startLen : Nat) : List (String × AnnInput) → List AnnRecord
  | [] => []
  | (now, i) :: rest =>
    mkFullAnnotation ("ANN_" ++ padZeros 6 (startLen + 1)) now i ::
      genRecords (startLen + 1) rest

/-! ### Concrete stores used by witnesses and counterexamples -/

/-- A concrete stand-in for the key-derivation function, used only to
instantiate theorems at computable inputs. -/
def kdfDemo (password salt : String) : String := password ++ salt

/-- A store whose two persisted ledger files both fail to parse. -/
def corruptStore : PersistedHistory :=
  { json := Except.error "Expecting value", csv := Except.error "ParserError" }

/-- A registered annotator (hash as `_hash_password` under `kdfDemo` with
salt `abc` and password `Passw0rd`). -/
def demoUserAnn : User :=
  { username := "ann", password_hash := "abc$Passw0rdabc", role := "annotator",
    created_at := "t0", last_login := none, is_active := true }

/-- An active user whose stored hash is that of `Secret1A` under
`kdfDemo` with salt `abc`. -/
def uAlice : User :=
  { username := "alice", password_hash := "abc$Secret1Aabc", role := "annotator",
    created_at := "2024-01-01", last_login := none, is_active := true }

/-- The same user, deactivated. -/
def uAliceDisabled : User := { uAlice with is_active := false }

/-- The annotation input the repository test script submits. -/
def demoInput : AnnInput :=
  { image_path := "test/path.jpg", folder := "test", filename := "path.jpg",
    suggested_label := "test", is_correct := true, corrected_label := "",
    annotator := "test_user" }

/-- A first annotation of image `000.jpg` by user `ann` (label accepted). -/
def cIn1 : AnnInput :=
  { image_path := "sorted_crops/31/000.jpg", folder := "31", filename := "000.jpg",
    suggested_label := "hello", is_correct := true, corrected_label := "",
    annotator := "ann" }

/-- A re-annotation of the same image by the same user (label corrected). -/
def cIn2 : AnnInput :=
  { image_path := "sorted_crops/31/000.jpg", folder := "31", filename := "000.jpg",
    suggested_label := "hello", is_correct := false, corrected_label := "wrold",
    annotator := "ann" }

/-- Two appends for the same `(image, user)` whose wall-clock timestamps
collide (same second, same ISO string). -/
def cSt : LedgerState :=
  save_annotation "2024-01-01T00:00:00"
    ( save_annotation "2024-01-01T00:00:00" emptyLedger cIn1) cIn2

/-- The record the first of the two colliding appends created. -/
def cRec1 : AnnRecord :=
  { annotation_id := "ANN_000001", image_path := "sorted_crops/31/000.jpg",
    folder := "31", filename := "000.jpg", suggested_label := "hello",
    is_correct := true, corrected_label := "", annotator := "ann",
    timestamp := "2024-01-01T00:00:00" }

/-- Two appends with distinct timestamps, for witness evaluation. -/
def demoInputs : List (String × AnnInput) := [("t1", cIn1), ("t2", cIn2)]

/-- The catalog of the concrete spec scenario: folder `31` with three
images but only two ground-truth lines. -/
def fs31 : DataLoaderFs :=
  { sorted_crops_dir := "sorted_crops",
    cropFolders := [("31", ["000.jpg", "001.jpg", "002.jpg"])],
    gtLines := [("31", ["hello\n", "wrold"])] }

theorem toNat_digitChar {n : Nat} (h : n < 10) : (digitChar n).toNat = 48 + n := by
  interval_cases n <;> decide

theorem decodeDigits_natDigitsAux :
    ∀ fuel n, n < fuel → decodeDigits (natDigitsAux fuel n) = n := by
  intro fuel
  induction fuel with
  | zero => omega
  | succ fuel ih =>
    intro n hn
    rw [natDigitsAux]
    by_cases h : n < 10
    · simp [h, decodeDigits, toNat_digitChar h]
    · have hd : n / 10 < n := Nat.div_lt_self (by omega) (by omega)
      have hrec := ih (n / 10) (by omega)
      simp only [h, if_neg, not_false_iff]
      simp only [decodeDigits, List.foldl_append, List.foldl_cons, List.foldl_nil] at *
      rw [hrec, toNat_digitChar (Nat.mod_lt n (by omega))]
      omega

theorem decodeDigits_natDigits (n : Nat) : decodeDigits (natDigits n) = n :=
  decodeDigits_natDigitsAux (n + 1) n (Nat.lt_succ_self n)

theorem decodeDigits_replicate_zero (k : Nat) (cs : List Char) :
    decodeDigits (List.replicate k '0' ++ cs) = decodeDigits cs := by
  induction k with
  | zero => simp
  | succ k ih =>
    simpa [decodeDigits, List.replicate_succ] using ih

theorem padZeros_inj {w a b : Nat} (h : padZeros w a = padZeros w b) : a = b := by
  have hdata : (padZeros w a).data = (padZeros w b).data := by rw [h]
  simp only [padZeros] at hdata
  have ha := decodeDigits_natDigits a
  have hb := decodeDigits_natDigits b
  calc a = decodeDigits (natDigits a) := ha.symm
    _ = decodeDigits (List.replicate (w - (natDigits a).length) '0' ++ natDigits a) :=
        (decodeDigits_replicate_zero _ _).symm
    _ = decodeDigits (List.replicate (w - (natDigits b).length) '0' ++ natDigits b) := by
        rw [hdata]
    _ = decodeDigits (natDigits b) := decodeDigits_replicate_zero _ _
    _ = b := hb

theorem splitOnCharPy_no_sep {c : Char} {l : List Char} (h : c ∉ l) :
    splitOnCharPy c l = [l] := by
  induction l with
  | nil => rfl
  | cons x xs ih =>
    simp only [List.mem_cons, not_or] at h
    rw [splitOnCharPy, if_neg (by exact fun hx => h.1 hx.symm), ih h.2]

theorem splitOnCharPy_sep {c : Char} {s t : List Char} (hs : c ∉ s) (ht : c ∉ t) :
    splitOnCharPy c (s ++ c :: t) = [s, t] := by
  induction s with
  | nil => simp [splitOnCharPy, splitOnCharPy_no_sep ht]
  | cons x xs ih =>
    simp only [List.mem_cons, not_or] at hs
    rw [List.cons_append, splitOnCharPy, if_neg (by exact fun hx => hs.1 hx.symm),
      ih hs.2]

theorem data_hash_password (kdf : String → String → String) (salt password : String) :
    (hash_password kdf salt password).data =
      salt.data ++ '$' :: (kdf password salt).data := by
  simp [hash_password, String.data_append]

/-- Verifying a password against the hash derived from it succeeds, as
long as neither the salt nor the derived key contains the delimiter
(which hex strings never do). -/
theorem verify_hash_password (kdf : String → String → String) (salt password : String)
    (hs : '$' ∉ salt.data) (hh : '$' ∉ (kdf password salt).data) :
    verify_password kdf password (hash_password kdf salt password) = true := by
  rw [verify_password, data_hash_password, splitOnCharPy_sep hs hh]
  simp

/-! ### Helper lemmas -/

theorem string_append_left_cancel {s a b : String} (h : s ++ a = s ++ b) : a = b := by
  have hd : (s ++ a).data = (s ++ b).data := by rw [h]
  rw [String.data_append, String.data_append] at hd
  exact String.ext (List.append_cancel_left hd)

theorem strLtList_irrefl : ∀ l : List Char, strLtList l l = false := by
  intro l
  induction l with
  | nil => rfl
  | cons x xs ih => simp [strLtList, ih]

theorem strLtList_asymm :
    ∀ a b : List Char, strLtList a b = true → strLtList b a = false := by
  intro a
  induction a with
  | nil =>
    intro b hab
    cases b with
    | nil => simp [strLtList] at hab
    | cons y ys => simp [strLtList]
  | cons x xs ih =>
    intro b hab
    cases b with
    | nil => simp [strLtList] at hab
    | cons y ys =>
      simp only [strLtList] at hab ⊢
      by_cases h1 : x.toNat < y.toNat
      · rw [if_neg (by omega : ¬ y.toNat < x.toNat), if_pos h1]
      · by_cases h2 : y.toNat < x.toNat
        · simp [h1, h2] at hab
        · simp only [if_neg h1, if_neg h2] at hab ⊢
          exact ih ys hab

theorem strLtList_cotrans :
    ∀ a c : List Char, strLtList a c = true →
      ∀ b : List Char, strLtList a b = true ∨ strLtList b c = true := by
  intro a
  induction a with
  | nil =>
    intro c hac b
    cases c with
    | nil => simp [strLtList] at hac
    | cons z zs =>
      cases b with
      | nil => exact Or.inr (by simp [strLtList])
      | cons y ys => exact Or.inl (by simp [strLtList])
  | cons x xs ih =>
    intro c hac b
    cases c with
    | nil => simp [strLtList] at hac
    | cons z zs =>
      cases b with
      | nil => exact Or.inr (by simp [strLtList])
      | cons y ys =>
        simp only [strLtList] at hac ⊢
        by_cases hxz : x.toNat < z.toNat
        · by_cases hxy : x.toNat < y.toNat
          · exact Or.inl (by simp [hxy])
          · refine Or.inr ?_
            have : y.toNat < z.toNat := by omega
            simp [this]
        · by_cases hzx : z.toNat < x.toNat
          · simp [hxz, hzx] at hac
          · simp only [if_neg hxz, if_neg hzx] at hac
            by_cases hxy : x.toNat < y.toNat
            · exact Or.inl (by simp [hxy])
            · by_cases hyx : y.toNat < x.toNat
              · refine Or.inr ?_
                have : y.toNat < z.toNat := by omega
                simp [this]
              · rcases ih zs hac ys with h | h
                · exact Or.inl (by simp [hxy, hyx, h])
                · refine Or.inr ?_
                  have h1 : ¬ y.toNat < z.toNat := by omega
                  have h2 : ¬ z.toNat < y.toNat := by omega
                  simp [h1, h2, h]

theorem strLt_irrefl (s : String) : strLt s s = false :=
  strLtList_irrefl s.data

theorem strLt_asymm {a b : String} (h : strLt a b = true) : strLt b a = false :=
  strLtList_asymm a.data b.data h

theorem strLt_cotrans {a c : String} (h : strLt a c = true) (b : String) :
    strLt a b = true ∨ strLt b c = true :=
  strLtList_cotrans a.data c.data h b.data

theorem length_insertTsDesc (a : AnnRecord) :
    ∀ l, (insertTsDesc a l).length = l.length + 1 := by
  intro l
  induction l with
  | nil => rfl
  | cons b t ih =>
    rw [insertTsDesc]
    split
    · simp [ih]
    · simp

theorem length_sortTsDesc : ∀ l, (sortTsDesc l).length = l.length := by
  intro l
  induction l with
  | nil => rfl
  | cons x xs ih =>
    show (insertTsDesc x (sortTsDesc xs)).length = xs.length + 1
    rw [length_insertTsDesc, ih]

theorem firstMaxTs_cons_none {t : List AnnRecord} (a : AnnRecord)
    (h : firstMaxTs t = none) : firstMaxTs (a :: t) = some a := by
  rw [firstMaxTs, h]

theorem firstMaxTs_cons_some {t : List AnnRecord} (a m : AnnRecord)
    (h : firstMaxTs t = some m) :
    firstMaxTs (a :: t) =
      if strLt a.timestamp m.timestamp then some m else some a := by
  rw [firstMaxTs, h]

theorem head_sortTsDesc : ∀ l, (sortTsDesc l).head? = firstMaxTs l := by
  intro l
  induction l with
  | nil => rfl
  | cons x xs ih =>
    show (insertTsDesc x (sortTsDesc xs)).head? = firstMaxTs (x :: xs)
    cases hs : sortTsDesc xs with
    | nil =>
      have hx : xs = [] := by
        have := length_sortTsDesc xs
        rw [hs] at this
        exact List.length_eq_zero.mp this.symm
      subst hx
      rfl
    | cons b t =>
      rw [hs] at ih
      have hfm : firstMaxTs xs = some b := by rw [← ih]; rfl
      rw [firstMaxTs_cons_some x b hfm, insertTsDesc]
      by_cases hlt : strLt x.timestamp b.timestamp = true
      · rw [if_pos hlt, if_pos hlt]; rfl
      · rw [if_neg hlt, if_neg hlt]; rfl

theorem firstMaxTs_none_iff : ∀ l, firstMaxTs l = none ↔ l = [] := by
  intro l
  cases l with
  | nil => simp [firstMaxTs]
  | cons a t =>
    constructor
    · intro h
      cases hf : firstMaxTs t with
      | none => rw [firstMaxTs_cons_none a hf] at h; simp at h
      | some m =>
        rw [firstMaxTs_cons_some a m hf] at h
        by_cases hlt : strLt a.timestamp m.timestamp = true
        · rw [if_pos hlt] at h; simp at h
        · rw [if_neg hlt] at h; simp at h
    · intro h
      exact absurd h (by simp)

theorem firstMaxTs_mem : ∀ l r, firstMaxTs l = some r → r ∈ l := by
  intro l
  induction l with
  | nil => intro r h; simp [firstMaxTs] at h
  | cons a t ih =>
    intro r h
    cases hf : firstMaxTs t with
    | none =>
      rw [firstMaxTs_cons_none a hf] at h
      simp at h
      simp [h]
    | some m =>
      rw [firstMaxTs_cons_some a m hf] at h
      by_cases hlt : strLt a.timestamp m.timestamp = true
      · rw [if_pos hlt] at h
        simp at h
        exact List.mem_cons_of_mem a (ih _ (h ▸ hf))
      · rw [if_neg hlt] at h
        simp at h
        simp [h]

theorem firstMaxTs_max :
    ∀ l r, firstMaxTs l = some r →
      ∀ s ∈ l, strLt r.timestamp s.timestamp = false := by
  intro l
  induction l with
  | nil => intro r h; simp [firstMaxTs] at h
  | cons a t ih =>
    intro r h s hs
    cases hf : firstMaxTs t with
    | none =>
      have ht : t = [] := (firstMaxTs_none_iff t).mp hf
      subst ht
      rw [firstMaxTs_cons_none a hf] at h
      simp at h hs
      subst h
      subst hs
      exact strLt_irrefl _
    | some m =>
      rw [firstMaxTs_cons_some a m hf] at h
      rcases List.mem_cons.mp hs with hsa | hst
      · subst hsa
        by_cases hlt : strLt s.timestamp m.timestamp = true
        · rw [if_pos hlt] at h
          simp at h
          subst h
          exact strLt_asymm hlt
        · rw [if_neg hlt] at h
          simp at h
          subst h
          exact strLt_irrefl _
      · by_cases hlt : strLt a.timestamp m.timestamp = true
        · rw [if_pos hlt] at h
          simp at h
          exact ih _ (h ▸ hf) s hst
        · rw [if_neg hlt] at h
          simp at h
          rw [← h]
          have hms := ih _ hf s hst
          by_contra hcon
          have has : strLt a.timestamp s.timestamp = true := by
            cases hx : strLt a.timestamp s.timestamp
            · exact absurd hx hcon
            · rfl
          rcases strLt_cotrans has m.timestamp with h1 | h1
          · exact hlt h1
          · rw [h1] at hms
            simp at hms

theorem firstMaxTs_first :
    ∀ l r, firstMaxTs l = some r →
      ∃ pre post, l = pre ++ r :: post ∧
        ∀ s ∈ pre, strLt s.timestamp r.timestamp = true := by
  intro l
  induction l with
  | nil => intro r h; simp [firstMaxTs] at h
  | cons a t ih =>
    intro r h
    cases hf : firstMaxTs t with
    | none =>
      rw [firstMaxTs_cons_none a hf] at h
      simp at h
      exact ⟨[], t, by simp [h], by simp⟩
    | some m =>
      rw [firstMaxTs_cons_some a m hf] at h
      by_cases hlt : strLt a.timestamp m.timestamp = true
      · rw [if_pos hlt] at h
        simp at h
        subst h
        obtain ⟨pre, post, hp, hpre⟩ := ih _ hf
        refine ⟨a :: pre, post, by simp [hp], ?_⟩
        intro s hsp
        rcases List.mem_cons.mp hsp with hsa | hsp2
        · subst hsa; exact hlt
        · exact hpre s hsp2
      · rw [if_neg hlt] at h
        simp at h
        subst h
        exact ⟨[], t, rfl, by simp⟩

theorem get_latest_eq_firstMaxTs (history : List AnnRecord) (image_path username : String) :
    get_latest_annotation_for_image history image_path username =
      firstMaxTs ((get_user_annotations history username).filter
        (fun a => a.image_path == image_path)) := by
  rw [get_latest_annotation_for_image, ← head_sortTsDesc]
  cases sortTsDesc ((get_user_annotations history username).filter
      (fun a => a.image_path == image_path)) <;> rfl

theorem save_annotation_historyJson (now : String) (st : LedgerState) (i : AnnInput) :
    ( save_annotation now st i).historyJson =
      st.historyJson ++
        [ mkFullAnnotation (generate_annotation_id st.historyJson) now i] := rfl

theorem save_annotation_historyCsv (now : String) (st : LedgerState) (i : AnnInput) :
    ( save_annotation now st i).historyCsv =
      st.historyCsv ++
        [annRow csvSaveFieldnames
          ( mkFullAnnotation (generate_annotation_id st.historyJson) now i)] := rfl

theorem appendAll_state :
    ∀ (l : List (String × AnnInput)) (st : LedgerState),
      (appendAll st l).historyJson =
        st.historyJson ++ genRecords st.historyJson.length l ∧
      (appendAll st l).historyCsv =
        st.historyCsv ++
          (genRecords st.historyJson.length l).map (annRow csvSaveFieldnames) := by
  intro l
  induction l with
  | nil => intro st; simp [appendAll, genRecords]
  | cons p rest ih =>
    intro st
    obtain ⟨now, i⟩ := p
    obtain ⟨hj, hc⟩ := ih ( save_annotation now st i)
    rw [save_annotation_historyJson] at hj hc
    rw [save_annotation_historyCsv] at hc
    constructor
    · show (appendAll ( save_annotation now st i) rest).historyJson = _
      rw [hj]
      simp [genRecords, generate_annotation_id, List.append_assoc]
    · show (appendAll ( save_annotation now st i) rest).historyCsv = _
      rw [hc]
      simp [genRecords, generate_annotation_id, List.append_assoc]

theorem genRecords_length : ∀ (l : List (String × AnnInput)) (s : Nat),
    (genRecords s l).length = l.length := by
  intro l
  induction l with
  | nil => intro s; rfl
  | cons p rest ih =>
    intro s
    obtain ⟨now, i⟩ := p
    simp [genRecords, ih]

theorem genRecords_get :
    ∀ (l : List (String × AnnInput)) (s k : Nat) (hk : k < (genRecords s l).length),
      ((genRecords s l).get ⟨k, hk⟩).annotation_id = "ANN_" ++ padZeros 6 (s + k + 1) := by
  intro l
  induction l with
  | nil => intro s k hk; simp [genRecords] at hk
  | cons p rest ih =>
    intro s k hk
    obtain ⟨now, i⟩ := p
    cases k with
    | zero => rfl
    | succ k =>
      have h2 : k < (genRecords (s + 1) rest).length := by
        rw [genRecords_length] at hk ⊢
        simp at hk
        omega
      have := ih (s + 1) k h2
      show ((genRecords (s + 1) rest).get ⟨k, h2⟩).annotation_id = _
      rw [this]
      exact congrArg (fun m => "ANN_" ++ padZeros 6 m) (by omega)

theorem genId_inj {a b : Nat} (h : "ANN_" ++ padZeros 6 a = "ANN_" ++ padZeros 6 b) :
    a = b :=
  padZeros_inj (string_append_left_cancel h)

theorem genRecords_ids :
    ∀ (l : List (String × AnnInput)) (s : Nat),
      (genRecords s l).map (fun a => a.annotation_id) =
        (List.range l.length).map (fun k => "ANN_" ++ padZeros 6 (s + k + 1)) := by
  intro l
  induction l with
  | nil => intro s; rfl
  | cons p rest ih =>
    intro s
    obtain ⟨now, i⟩ := p
    simp only [genRecords, List.map_cons, List.length_cons, List.range_succ_eq_map,
      List.map_map]
    rw [List.cons_eq_cons]
    constructor
    · show "ANN_" ++ padZeros 6 (s + 1) = _
      exact congrArg (fun m => "ANN_" ++ padZeros 6 m) (by omega)
    · rw [ih (s + 1)]
      refine List.map_congr_left ?_
      intro k hk
      simp only [Function.comp]
      exact congrArg (fun m => "ANN_" ++ padZeros 6 m) (by omega)

theorem authenticate_go_skip (kdf : String → String → String)
    (now username password : String) :
    ∀ (pre l : List User), (∀ u ∈ pre, (u.username == username) = false) →
      authenticate_go kdf now username password (pre ++ l) =
        ((authenticate_go kdf now username password l).1,
          pre ++ (authenticate_go kdf now username password l).2) := by
  intro pre
  induction pre with
  | nil => intro l _; simp
  | cons v pre ih =>
    intro l hpre
    have hv : (v.username == username) = false := hpre v (List.mem_cons_self v pre)
    have hrest : ∀ u ∈ pre, (u.username == username) = false := fun u hu =>
      hpre u (List.mem_cons_of_mem v hu)
    rw [List.cons_append, authenticate_go, if_neg (by simp [hv]), ih l hrest]
    rfl

theorem authenticate_go_not_found (kdf : String → String → String)
    (now username password : String) :
    ∀ l : List User, (∀ u ∈ l, (u.username == username) = false) →
      authenticate_go kdf now username password l = ((false, none), l) := by
  intro l
  induction l with
  | nil => intro _; rfl
  | cons v rest ih =>
    intro hl
    have hv : (v.username == username) = false := hl v (List.mem_cons_self v rest)
    rw [authenticate_go, if_neg (by simp [hv]),
      ih (fun u hu => hl u (List.mem_cons_of_mem v hu))]

theorem set_active_go_not_found (username : String) (b : Bool) :
    ∀ l : List User, (∀ u ∈ l, (u.username == username) = false) →
      set_active_go username b l = (false, l) := by
  intro l
  induction l with
  | nil => intro _; rfl
  | cons v rest ih =>
    intro hl
    have hv : (v.username == username) = false := hl v (List.mem_cons_self v rest)
    rw [set_active_go, if_neg (by simp [hv]),
      ih (fun u hu => hl u (List.mem_cons_of_mem v hu))]

/-- Case analysis of `authenticate_user` through `get_user` (the first
record with the requested username): no such user, user disabled, or
password mismatch each yield `(False, None)` with the store unchanged. -/
theorem authenticate_user_failure_cases (kdf : String → String → String)
    (now username password : String) :
    ∀ users : List User,
      (get_user users username = none →
        authenticate_user kdf now users username password = ((false, none), users)) ∧
      (∀ u, get_user users username = some u → u.is_active = false →
        authenticate_user kdf now users username password = ((false, none), users)) ∧
      (∀ u, get_user users username = some u → u.is_active = true →
        verify_password kdf password u.password_hash = false →
        authenticate_user kdf now users username password = ((false, none), users)) := by
  intro users
  induction users with
  | nil =>
    refine ⟨fun _ => rfl, fun u hu => ?_, fun u hu => ?_⟩ <;>
      simp [get_user] at hu
  | cons v rest ih =>
    obtain ⟨ih1, ih2, ih3⟩ := ih
    cases hv : v.username == username with
    | true =>
      have hfind : get_user (v :: rest) username = some v := by
        simp [get_user, List.find?_cons_of_pos, hv]
      refine ⟨fun hnone => ?_, fun u hu hact => ?_, fun u hu hact hver => ?_⟩
      · rw [hfind] at hnone; exact absurd hnone (by simp)
      · rw [hfind] at hu
        have huv : v = u := by simpa using hu
        show authenticate_go kdf now username password (v :: rest) = _
        rw [authenticate_go, if_pos hv, if_pos (by rw [huv]; simp [hact])]
      · rw [hfind] at hu
        have huv : v = u := by simpa using hu
        show authenticate_go kdf now username password (v :: rest) = _
        rw [authenticate_go, if_pos hv, if_neg (by rw [huv]; simp [hact]),
          if_neg (by rw [huv]; simp [hver])]
    | false =>
      have hfind : get_user (v :: rest) username = get_user rest username := by
        simp [get_user, List.find?_cons_of_neg, hv]
      have hstep : authenticate_user kdf now (v :: rest) username password =
          ((authenticate_user kdf now rest username password).1,
            v :: (authenticate_user kdf now rest username password).2) := by
        show authenticate_go kdf now username password (v :: rest) = _
        rw [authenticate_go, if_neg (by simp [hv])]
        rfl
      refine ⟨fun hnone => ?_, fun u hu hact => ?_, fun u hu hact hver => ?_⟩
      · rw [hfind] at hnone
        rw [hstep, ih1 hnone]
      · rw [hfind] at hu
        rw [hstep, ih2 u hu hact]
      · rw [hfind] at hu
        rw [hstep, ih3 u hu hact hver]

/-! ### Claims -/

/-- Claim C10: `delete_user` reports `true` for every username, present or
not (deleting an absent user removes nothing and still succeeds), while
`disable_user` and `enable_user` report `false` and leave the store
unchanged when the username is absent; all three are total functions of
the user list. -/
theorem claim_C10 (users : List User) (username : String) :
    (delete_user users username).1 = true ∧
    ((∀ u ∈ users, (u.username == username) = false) →
      (delete_user users username).2 = users ∧
      disable_user users username = (false, users) ∧
      enable_user users username = (false, users)) := by
  refine ⟨rfl, fun h => ⟨?_, ?_, ?_⟩⟩
  · show users.filter (fun u => !(u.username == username)) = users
    exact List.filter_eq_self.mpr (fun u hu => by simp [h u hu])
  · exact set_active_go_not_found username false users h
  · exact set_active_go_not_found username true users h

theorem claim_C10_witness :
    (delete_user [demoUserAnn] "bob").1 = true ∧
    (delete_user [demoUserAnn] "bob").2 = [demoUserAnn] ∧
    disable_user [demoUserAnn] "bob" = (false, [demoUserAnn]) ∧
    enable_user [demoUserAnn] "bob" = (false, [demoUserAnn]) := by
  have h := claim_C10 [demoUserAnn] "bob"
  exact ⟨h.1, (h.2 (by decide)).1, (h.2 (by decide)).2.1, (h.2 (by decide)).2.2⟩

/-- Claim C7: `get_user_stats` computes, over the records whose annotator
equals the given username, `total` the record count, `correct` the count
with `is_correct` true, `incorrect = total - correct`, and
`correct_percentage = 100 * correct / total`, the whole result being
`{0, 0, 0, 0.0}` when no record matches (never a division by zero). -/
theorem claim_C7 (history : List AnnRecord) (username : String) :
    (get_user_stats history username).total =
      (history.filter (fun a => a.annotator == username)).length ∧
    (get_user_stats history username).correct =
      ((history.filter (fun a => a.annotator == username)).filter
        (fun a => a.is_correct)).length ∧
    (get_user_stats history username).incorrect =
      (get_user_stats history username).total -
        (get_user_stats history username).correct ∧
    ((history.filter (fun a => a.annotator == username)).length = 0 →
      get_user_stats history username =
        { total := 0, correct := 0, incorrect := 0, correct_percentage := 0 }) ∧
    (0 < (history.filter (fun a => a.annotator == username)).length →
      (get_user_stats history username).correct_percentage =
        100 * ((get_user_stats history username).correct : Rat) /
          ((get_user_stats history username).total : Rat)) := by
  by_cases hm : (history.filter (fun a => a.annotator == username)).isEmpty
  · have hnil : history.filter (fun a => a.annotator == username) = [] :=
      List.isEmpty_iff.mp hm
    simp [get_user_stats, get_user_annotations, hnil]
  · have hcomp : get_user_stats history username =
        { total := (history.filter (fun a => a.annotator == username)).length
          correct := ((history.filter (fun a => a.annotator == username)).filter
            (fun a => a.is_correct)).length
          incorrect := (history.filter (fun a => a.annotator == username)).length -
            ((history.filter (fun a => a.annotator == username)).filter
              (fun a => a.is_correct)).length
          correct_percentage :=
            (((history.filter (fun a => a.annotator == username)).filter
              (fun a => a.is_correct)).length : Rat) /
              ((history.filter (fun a => a.annotator == username)).length : Rat) * 100 } := by
      rw [get_user_stats]
      simp only [get_user_annotations, hm]
      rfl
    refine ⟨by rw [hcomp], by rw [hcomp], by rw [hcomp], fun h0 => ?_, fun hpos => ?_⟩
    · exact absurd (List.isEmpty_iff.mpr (List.length_eq_zero.mp h0)) hm
    · rw [hcomp]
      show (_ : Rat) / _ * 100 = 100 * _ / _
      ring

theorem claim_C7_witness :
    (get_user_stats cSt.historyJson "ann").total = 2 ∧
    (get_user_stats cSt.historyJson "ann").correct = 1 ∧
    (get_user_stats cSt.historyJson "ann").correct_percentage =
      100 * ((get_user_stats cSt.historyJson "ann").correct : Rat) /
        ((get_user_stats cSt.historyJson "ann").total : Rat) := by
  have h := claim_C7 cSt.historyJson "ann"
  refine ⟨?_, ?_, h.2.2.2.2 (by decide)⟩
  · rw [h.1]; decide
  · rw [h.2.1]; decide

/-- Claim C6: registering an already-registered username fails with the
duplicate-user message and no mutation: the returned store is exactly the
input store, so the first user record is untouched.  (The length
hypothesis is satisfied by every username that passed registration, which
enforces length at least 3.) -/
theorem claim_C6 (kdf : String → String → String) (salt now : String)
    (users : List User) (username password role : String) (admin_key : Option String)
    (hlen : 3 ≤ username.length)
    (hmem : ∃ u ∈ users, u.username = username) :
    register_user kdf salt now users username password role admin_key =
      ((false, "Username already exists"), users) := by
  obtain ⟨u0, hu0, hname⟩ := hmem
  have hne : (username == "") = false := by
    refine beq_eq_false_iff_ne.mpr ?_
    intro h
    rw [h] at hlen
    simp at hlen
  have hany : users.any (fun u => u.username == username) = true :=
    List.any_eq_true.mpr ⟨u0, hu0, by simp [hname]⟩
  rw [register_user, if_neg ?_, if_pos hany]
  rw [hne]
  simp
  omega

theorem claim_C6_witness :
    register_user kdfDemo "abc" "t1" [demoUserAnn] "ann" "Other123" "annotator" none =
      ((false, "Username already exists"), [demoUserAnn]) :=
  claim_C6 kdfDemo "abc" "t1" [demoUserAnn] "ann" "Other123" "annotator" none
    (by decide) (by decide)

/-- Counterexample to claim C2 as stated: on a store whose `history.json`
does not parse, `load_history` propagates the failure instead of
returning the empty sequence. -/
theorem claim_C2_counterexample :
    load_history corruptStore = Except.error "Expecting value" ∧
    load_history corruptStore ≠ Except.ok [] := by
  refine ⟨rfl, ?_⟩
  intro h
  simp [load_history, corruptStore] at h

/-- Claim C2 amended: `load_history` propagates the parse outcome of
`history.json` unchanged (a corrupt store raises to the caller), while the
DataFrame read path `load_history_df` is the one that degrades: on a
corrupt JSON file it falls back to the CSV table restricted to the known
columns, and when that is also unreadable it returns the empty frame,
never propagating a failure. -/
theorem claim_C2_amended (p : PersistedHistory) (e e2 : String) :
    load_history p = p.json ∧
    (p.json = Except.error e → p.csv = Except.error e2 →
      load_history_df p = DataFrame.empty) ∧
    (∀ header rows, p.json = Except.error e → p.csv = Except.ok (header, rows) →
      load_history_df p =
        DataFrame.ofTable (dfKnownCols.filter (fun c => header.contains c))
          (rows.map (fun r => (dfKnownCols.filter (fun c => header.contains c)).map
            (cellUnder header r)))) := by
  refine ⟨rfl, fun hj hc => ?_, fun header rows hj hc => ?_⟩
  · rw [load_history_df, hj, hc]
  · rw [load_history_df, hj, hc]

theorem claim_C2_witness : load_history_df corruptStore = DataFrame.empty :=
  (claim_C2_amended corruptStore "Expecting value" "ParserError").2.1 rfl rfl

/-- Counterexample to claim C5 as stated: the three failure cases of
`authenticate_user` (unknown username, deactivated account, wrong
password) all return the same value `(False, None)`; the programmatic
result does not distinguish them. -/
theorem claim_C5_counterexample :
    (authenticate_user kdfDemo "t" [uAlice] "bob" "Secret1A").1 = (false, none) ∧
    (authenticate_user kdfDemo "t" [uAliceDisabled] "alice" "Secret1A").1 = (false, none) ∧
    (authenticate_user kdfDemo "t" [uAlice] "alice" "wrong").1 = (false, none) := by
  decide

/-- Claim C5 amended: `authenticate_user` does traverse the three failure
conditions in order (no matching username, account deactivated, derived
hash mismatch) but returns the identical value `(False, None)` with the
store unchanged in each case; the cases are distinguished only by control
flow, never by the returned value. -/
theorem claim_C5_amended (kdf : String → String → String)
    (now username password : String) (users : List User) :
    (get_user users username = none →
      authenticate_user kdf now users username password = ((false, none), users)) ∧
    (∀ u, get_user users username = some u → u.is_active = false →
      authenticate_user kdf now users username password = ((false, none), users)) ∧
    (∀ u, get_user users username = some u → u.is_active = true →
      verify_password kdf password u.password_hash = false →
      authenticate_user kdf now users username password = ((false, none), users)) :=
  authenticate_user_failure_cases kdf now username password users

theorem claim_C5_witness :
    authenticate_user kdfDemo "t" [uAliceDisabled] "alice" "Secret1A" =
      ((false, none), [uAliceDisabled]) :=
  (claim_C5_amended kdfDemo "t" "alice" "Secret1A" [uAliceDisabled]).2.1
    uAliceDisabled (by decide) (by decide)

/-- Counterexample to claim C9 as stated: the CSV row a single append
writes has ten cells, not nine — the `DictWriter` inside
`save_annotation` lists a tenth fieldname `status` that no record carries,
so every data row ends in an extra empty cell absent from the
nine-column header written by `_initialize_files`. -/
theorem claim_C9_counterexample :
    ( save_annotation "T" emptyLedger demoInput).historyCsv =
      [["ANN_000001", "test/path.jpg", "test", "path.jpg", "test", "True", "",
        "test_user", "T", ""]] ∧
    csvHeader.length = 9 ∧
    ( save_annotation "T" emptyLedger demoInput).historyCsv.map List.length = [10] := by
  decide

/-- Claim C9 amended: after every sequence of appends the tabular form and
the array form describe the same record sequence row for row, and each row
consists of the nine record fields in the fixed header order
`annotation_id, image_path, folder, filename, suggested_label,
is_correct, corrected_label, annotator, timestamp` followed by one extra
empty cell for the `status` fieldname, which the header does not list. -/
theorem claim_C9_amended (inputs : List (String × AnnInput)) :
    (appendAll emptyLedger inputs).historyCsv =
      (appendAll emptyLedger inputs).historyJson.map (annRow csvSaveFieldnames) ∧
    (∀ a : AnnRecord,
      annRow csvSaveFieldnames a =
        [a.annotation_id, a.image_path, a.folder, a.filename, a.suggested_label,
          pyStrBool a.is_correct, a.corrected_label, a.annotator, a.timestamp, ""]) ∧
    csvSaveFieldnames = csvHeader ++ ["status"] ∧
    csvHeader =
      ["annotation_id", "image_path", "folder", "filename", "suggested_label",
        "is_correct", "corrected_label", "annotator", "timestamp"] := by
  refine ⟨?_, fun a => rfl, rfl, rfl⟩
  obtain ⟨hj, hc⟩ := appendAll_state inputs emptyLedger
  rw [hj, hc]
  simp [emptyLedger]

/-- Claim C3: starting from the empty ledger, a run of `N` appends leaves
`load_history` with exactly `N` records, all `annotation_id` values
distinct, the `k`-th appended record carrying id `ANN_` + the number `k`
zero-padded to six digits (current ledger length + 1 at the time of that
append), and every single append only adds one record at the end, never
mutating or removing a prior one. -/
theorem claim_C3 (inputs : List (String × AnnInput)) :
    (appendAll emptyLedger inputs).historyJson.length = inputs.length ∧
    ((appendAll emptyLedger inputs).historyJson.map
      (fun a => a.annotation_id)).Nodup ∧
    (∀ k (hk : k < (appendAll emptyLedger inputs).historyJson.length),
      ((appendAll emptyLedger inputs).historyJson.get ⟨k, hk⟩).annotation_id =
        "ANN_" ++ padZeros 6 (k + 1)) ∧
    (∀ (now : String) (st : LedgerState) (i : AnnInput),
      ( save_annotation now st i).historyJson =
        st.historyJson ++
          [ mkFullAnnotation (generate_annotation_id st.historyJson) now i]) := by
  have hj2 : (appendAll emptyLedger inputs).historyJson = genRecords 0 inputs := by
    have hj := (appendAll_state inputs emptyLedger).1
    simpa [emptyLedger] using hj
  refine ⟨?_, ?_, ?_, fun now st i => save_annotation_historyJson now st i⟩
  · rw [hj2, genRecords_length]
  · rw [hj2, genRecords_ids]
    refine List.Nodup.map ?_ (List.nodup_range inputs.length)
    intro a b h
    have := genId_inj h
    omega
  · intro k hk
    have hk2 : k < (genRecords 0 inputs).length := by rw [← hj2]; exact hk
    have h3 := List.get_of_eq hj2 ⟨k, hk⟩
    rw [h3, genRecords_get]
    simp

theorem claim_C3_witness :
    ((appendAll emptyLedger demoInputs).historyJson.get ⟨1, by decide⟩).annotation_id =
      "ANN_" ++ padZeros 6 2 ∧
    "ANN_" ++ padZeros 6 2 = "ANN_000002" :=
  ⟨(claim_C3 demoInputs).2.2.1 1 (by decide), by decide⟩

/-- Claim C8: `load_all_data` walks the sorted folders and pairs the k-th
image of a folder (in sorted listing order) with the k-th stripped line of
that folder ground-truth file, an index past the end of the label list
yielding the empty suggested label without error; in the concrete
scenario of folder `31` with three images and the two-line label file
`hello` / `wrold`, the suggested labels come out `hello`, `wrold`, `""`
in that order. -/
theorem claim_C8 :
    (∀ fs : DataLoaderFs,
      load_all_data fs = (get_all_folders fs).flatMap (folderItems fs)) ∧
    (∀ (fs : DataLoaderFs) (folder : String),
      (folderItems fs folder).length = (get_images_in_folder fs folder).length) ∧
    (∀ (fs : DataLoaderFs) (folder : String) (k : Nat)
        (hk : k < (folderItems fs folder).length),
      ((folderItems fs folder).get ⟨k, hk⟩).suggested_label =
        (load_ground_truth fs folder).getD k "" ∧
      ((folderItems fs folder).get ⟨k, hk⟩).filename =
        (get_images_in_folder fs folder).getD k "" ∧
      ((folderItems fs folder).get ⟨k, hk⟩).index = k) ∧
    (load_all_data fs31).map (fun d => d.suggested_label) = ["hello", "wrold", ""] := by
  refine ⟨fun fs => rfl, fun fs folder => by simp [folderItems], ?_, by decide⟩
  intro fs folder k hk
  have hki : k < (get_images_in_folder fs folder).length := by
    simpa [folderItems] using hk
  refine ⟨?_, ?_, ?_⟩ <;>
    simp [folderItems, List.get_eq_getElem, List.getD_eq_getElem?_getD,
      List.getElem?_eq_getElem hki]

theorem claim_C8_witness :
    ((folderItems fs31 "31").get ⟨2, by decide⟩).suggested_label =
      (load_ground_truth fs31 "31").getD 2 "" ∧
    (load_ground_truth fs31 "31").getD 2 "" = "" ∧
    ((folderItems fs31 "31").get ⟨2, by decide⟩).filename = "002.jpg" :=
  ⟨(claim_C8.2.2.1 fs31 "31" 2 (by decide)).1, by decide, by decide⟩

/-- Claim C4: for a fresh username of length at least 3, a password that
satisfies the policy, and a role that is either not `admin` or comes with
the correct admin key, `register_user` succeeds, and authenticating with
the same credentials then succeeds and returns a user whose `username` and
`role` are the registered ones.  (The two containment hypotheses on `$`
hold for the hex salt and hex digest of the real key derivation.) -/
theorem claim_C4 (kdf : String → String → String) (salt now now2 : String)
    (users : List User) (username password role : String) (admin_key : Option String)
    (hlen : 3 ≤ username.length)
    (hnew : ∀ u ∈ users, (u.username == username) = false)
    (hpw : (validate_password password).1 = true)
    (hrole : role ≠ "admin" ∨ admin_key = some ADMIN_CREATION_KEY)
    (hsalt : '$' ∉ salt.data)
    (hkdf : '$' ∉ (kdf password salt).data) :
    (register_user kdf salt now users username password role admin_key).1.1 = true ∧
    ∃ u : User,
      (authenticate_user kdf now2
        (register_user kdf salt now users username password role admin_key).2
        username password).1 = (true, some u) ∧
      u.username = username ∧ u.role = role := by
  have hne : (username == "") = false := by
    refine beq_eq_false_iff_ne.mpr ?_
    intro h
    rw [h] at hlen
    simp at hlen
  have hany : users.any (fun u => u.username == username) = false :=
    List.any_eq_false.mpr (fun u hu => by simp [hnew u hu])
  have hkey : (role == "admin" && !(adminKeyOk admin_key)) = false := by
    rcases hrole with hr | hk
    · simp [hr]
    · subst hk
      simp [adminKeyOk, ADMIN_CREATION_KEY]
  have hreg : register_user kdf salt now users username password role admin_key =
      ((true, "User " ++ sq ++ username ++ sq ++ " created successfully as " ++ role),
        users ++ [{ username := username,
                    password_hash := hash_password kdf salt password,
                    role := role, created_at := now, last_login := none,
                    is_active := true }]) := by
    rw [register_user]
    rw [if_neg (by rw [hne]; simp; omega), if_neg (by simp [hany])]
    simp only [hpw, Bool.not_true, Bool.false_eq_true, if_false, hkey]
  refine ⟨by rw [hreg], ?_⟩
  rw [hreg]
  have hskip := authenticate_go_skip kdf now2 username password users
    [{ username := username, password_hash := hash_password kdf salt password,
       role := role, created_at := now, last_login := none, is_active := true }] hnew
  have hver : verify_password kdf password (hash_password kdf salt password) = true :=
    verify_hash_password kdf salt password hsalt hkdf
  have hone : authenticate_go kdf now2 username password
      [{ username := username, password_hash := hash_password kdf salt password,
         role := role, created_at := now, last_login := none, is_active := true }] =
      ((true, some { username := username,
                     password_hash := hash_password kdf salt password,
                     role := role, created_at := now, last_login := some now2,
                     is_active := true }),
        [{ username := username, password_hash := hash_password kdf salt password,
           role := role, created_at := now, last_login := some now2,
           is_active := true }]) := by
    rw [authenticate_go, if_pos (by simp), if_neg (by simp), if_pos hver]
  refine ⟨{ username := username, password_hash := hash_password kdf salt password,
            role := role, created_at := now, last_login := some now2,
            is_active := true }, ?_, rfl, rfl⟩
  show (authenticate_go kdf now2 username password (users ++ [_])).1 = _
  rw [hskip, hone]

theorem claim_C4_witness :
    (register_user kdfDemo "abc" "t0" [] "ann" "Passw0rd" "annotator" none).1.1 = true ∧
    ∃ u : User,
      (authenticate_user kdfDemo "t1"
        (register_user kdfDemo "abc" "t0" [] "ann" "Passw0rd" "annotator" none).2
        "ann" "Passw0rd").1 = (true, some u) ∧
      u.username = "ann" ∧ u.role = "annotator" :=
  claim_C4 kdfDemo "abc" "t0" "t1" [] "ann" "Passw0rd" "annotator" none
    (by decide) (by decide) (by decide) (Or.inl (by decide)) (by decide) (by decide)

/-- Counterexample to claim C1 as stated: after two appends for the same
`(image, user)` whose ISO timestamps collide, the match set holds ids
`ANN_000001` and `ANN_000002` with equal (hence both maximal) timestamps,
and `get_latest_annotation_for_image` returns the record with the
EARLIER id `ANN_000001` — not the later insertion `ANN_000002` the claim
requires for ties. -/
theorem claim_C1_counterexample :
    ((get_user_annotations cSt.historyJson "ann").filter
        (fun a => a.image_path == "sorted_crops/31/000.jpg")).map
      (fun a => (a.annotation_id, a.timestamp)) =
      [("ANN_000001", "2024-01-01T00:00:00"), ("ANN_000002", "2024-01-01T00:00:00")] ∧
    (get_latest_annotation_for_image cSt.historyJson
        "sorted_crops/31/000.jpg" "ann").map (fun a => a.annotation_id) =
      some "ANN_000001" := by
  decide

/-- Claim C1 amended: among the records matching the image and user,
`get_latest_annotation_for_image` returns the FIRST record attaining the
maximum timestamp — on timestamp ties the earliest `annotation_id`
(earliest insertion), because the descending sort is stable and element
zero is taken; on an empty match set it returns `none`.  Formally the
result is `firstMaxTs` of the match list: a member, no match strictly
later, and everything before it in the list strictly earlier. -/
theorem claim_C1_amended (history : List AnnRecord) (image_path username : String) :
    get_latest_annotation_for_image history image_path username =
      firstMaxTs ((get_user_annotations history username).filter
        (fun a => a.image_path == image_path)) ∧
    ((get_user_annotations history username).filter
        (fun a => a.image_path == image_path) = [] →
      get_latest_annotation_for_image history image_path username = none) ∧
    (∀ r, get_latest_annotation_for_image history image_path username = some r →
      r ∈ (get_user_annotations history username).filter
          (fun a => a.image_path == image_path) ∧
      (∀ s ∈ (get_user_annotations history username).filter
          (fun a => a.image_path == image_path),
        strLt r.timestamp s.timestamp = false) ∧
      ∃ pre post,
        (get_user_annotations history username).filter
            (fun a => a.image_path == image_path) = pre ++ r :: post ∧
        ∀ s ∈ pre, strLt s.timestamp r.timestamp = true) := by
  refine ⟨get_latest_eq_firstMaxTs history image_path username,
    fun hnil => ?_, fun r hr => ?_⟩
  · rw [get_latest_eq_firstMaxTs, hnil]
    rfl
  · rw [get_latest_eq_firstMaxTs] at hr
    exact ⟨firstMaxTs_mem _ _ hr, firstMaxTs_max _ _ hr, firstMaxTs_first _ _ hr⟩

theorem claim_C1_witness :
    cRec1 ∈ (get_user_annotations cSt.historyJson "ann").filter
      (fun a => a.image_path == "sorted_crops/31/000.jpg") ∧
    get_latest_annotation_for_image cSt.historyJson "other.jpg" "ann" = none :=
  ⟨((claim_C1_amended cSt.historyJson "sorted_crops/31/000.jpg" "ann").2.2
      cRec1 (by decide)).1,
    (claim_C1_amended cSt.historyJson "other.jpg" "ann").2.1 (by decide)⟩

end Annotation
